import Mathlib

/-!
Shallow embedding of the conduit-connector-neo4j repository (Go), covering:

* the value universe handled by the connector (Go `any` values coming from
  JSON decoding and from the Neo4j driver),
* the source iterator package (`Position` codec, `Snapshot` iterator,
  polling construction, batch loading and the generated Cypher queries),
* the source orchestrator (`Source.Open` / `Source.Read`),
* the destination writer (update and relationship-create statement
  synthesis) and `Destination.Write`.

Pure data and string manipulation is translated directly from the Go source.
Effectful collaborators (the Neo4j driver) are modelled as explicit oracles;
a concrete oracle `graphDB` interprets the queries the connector generates
over an in-memory list of property rows.
-/

namespace Neo4jConn

/-- Go primitive values as they occur in connector property maps and
positions: `nil`, strings, `int64` (what the Neo4j driver returns for
integer properties), `float64` (restricted to integral values, which is all
the claims need) and booleans. -/
inductive GoVal where
  | null
  | str (s : String)
  | int (n : Int)
  | float (n : Int)
  | boolean (b : Bool)
deriving DecidableEq, Repr

/-- In Go, the check `v != nil` on an `any` value. -/
def GoVal.isNull : GoVal → Bool
  | .null => true
  | _ => false

/-- Whether the value is an `int64`. -/
def GoVal.isInt : GoVal → Bool
  | .int _ => true
  | _ => false

/-- JSON wire values (the content of `sdk.Position` bytes).  JSON has a
single number type, so `int64` and `float64` both serialize to `num`. -/
inductive JVal where
  | null
  | num (n : Int)
  | str (s : String)
  | boolean (b : Bool)
deriving DecidableEq, Repr

/-- What `encoding/json.Marshal` does to a Go `any` value. -/
def goValToJson : GoVal → JVal
  | .null => .null
  | .str s => .str s
  | .int n => .num n
  | .float n => .num n
  | .boolean b => .boolean b

/-- What `encoding/json.Unmarshal` produces when decoding a JSON value into
a Go `any`: every JSON number becomes a `float64`. -/
def jsonToGoVal : JVal → GoVal
  | .null => .null
  | .num n => .float n
  | .str s => .str s
  | .boolean b => .boolean b

/-- Marshalling a Go value to JSON and decoding it back into `any`. -/
def goValJsonRT (v : GoVal) : GoVal :=
  jsonToGoVal (goValToJson v)

/-- Go errors as the connector observes them: named sentinel errors,
`neo4j.UsageError` values carrying a message, `fmt.Errorf("...: %w", err)`
wrapping, and otherwise-opaque error strings. -/
inductive GoErr where
  | sentinel (name : String)
  | usage (msg : String)
  | wrap (context : String) (e : GoErr)
  | str (msg : String)
deriving DecidableEq, Repr

/-- The `errors.Is` check: compare at each level of `%w` unwrapping. -/
def errorsIs : GoErr → GoErr → Bool
  | .wrap c e, t => (GoErr.wrap c e = t) || errorsIs e t
  | e, t => e = t

/-- The `errors.As(err, &usageError)` check, returning the message of the
first `neo4j.UsageError` in the unwrap chain. -/
def errorsAsUsage : GoErr → Option String
  | .usage m => some m
  | .wrap _ e => errorsAsUsage e
  | _ => none

/-- Sentinel `iterator.ErrNilSDKPosition`. -/
def ErrNilSDKPosition : GoErr := .sentinel "nil sdk position"

/-- Sentinel `iterator.errNoElements`. -/
def errNoElements : GoErr := .sentinel "no elements"

/-- Sentinel `source.errNoIterator`. -/
def errNoIterator : GoErr := .sentinel "no iterator"

/-- Sentinel `sdk.ErrBackoffRetry`. -/
def ErrBackoffRetry : GoErr := .sentinel "backoff retry"

/-- The message the Neo4j driver puts in the `UsageError` returned by
`result.Single` when the result holds no records. -/
def neo4jNoMoreRecordsErrorMessage : String := "Result contains no more records"

/-- A Go `map[string]any` restricted to primitive values (property rows of
nodes, query parameters, record keys).  Modelled as an association list;
Go map iteration order is unspecified, so theorems below only use
name-indexed lookups or quantify over entries. -/
abbrev Props := List (String × GoVal)

/-- Lookup of the value stored under a name in a Go map modelled as an
association list. -/
def lookupA (m : List (String × α)) (k : String) : Option α :=
  (m.find? fun p => p.1 = k).map (·.2)

/-- Lookup in a property map. -/
def lookupP (m : Props) (k : String) : Option GoVal :=
  lookupA m k

/-- Writer-side `any` values: either a primitive or a decoded node
descriptor object `{labels, key}` (the shape `schema.Node` marshals to). -/
inductive WVal where
  | prim (v : GoVal)
  | node (labels : List String) (key : Props)
deriving DecidableEq, Repr

/-- A structurized record key or payload on the destination side. -/
abbrev WProps := List (String × WVal)

/-- Lookup in a structurized payload. -/
def lookupW (m : WProps) (k : String) : Option WVal :=
  lookupA m k

/-- Go `delete(m, k)` on a structurized payload. -/
def deleteW (m : WProps) (k : String) : WProps :=
  m.filter fun p => ¬ p.1 = k

/-- Characters trimmed by `strings.TrimRight(s, ", ")`. -/
def commaSpace (c : Char) : Bool :=
  c = ',' || c = ' '

/-- Go `strings.TrimRight(s, ", ")`: drop trailing commas and spaces. -/
def trimRightCommaSpace (s : String) : String :=
  ⟨((s.data.reverse.dropWhile commaSpace).reverse)⟩

/-- Join a list of fragments with a separator (used to state, in the
spec's words, what the clause builders produce). -/
def joinSep (sep : String) : List String → String
  | [] => ""
  | [x] => x
  | x :: y :: xs => x ++ sep ++ joinSep sep (y :: xs)

/-! ## Position codec (src/unnamed/part_005, `Position`) -/

/-- Position mode constant `ModeSnapshot`.  `PositionMode` is a Go string
type, so the mode field is modelled as a `String`. -/
def ModeSnapshot : String := "snapshot"

/-- Position mode constant `ModeSnapshotPolling`. -/
def ModeSnapshotPolling : String := "snapshot_polling"

/-- The iterator `Position`: mode, last processed ordering value and the
max ordering value captured at snapshot start.  The two `any` fields hold
`GoVal.null` where the Go struct holds `nil`. -/
structure Position where
  mode : String
  lastProcessedValue : GoVal
  maxElement : GoVal
deriving DecidableEq, Repr

/-- The JSON object serialized into `sdk.Position` bytes. -/
abbrev SDKPosition := List (String × JVal)

/-- Lookup of a field in a marshalled position object. -/
def lookupJ (m : SDKPosition) (k : String) : Option JVal :=
  lookupA m k

/-- Position.MarshalSDKPosition: `json.Marshal` of the struct.  The field
tags are `mode`, `lastProcessedValue` and `maxElement,omitempty`; for an
interface-typed field `omitempty` omits it exactly when the value is nil. -/
def marshalSDKPosition (p : Position) : SDKPosition :=
  [("mode", .str p.mode), ("lastProcessedValue", goValToJson p.lastProcessedValue)]
    ++ (if p.maxElement.isNull then [] else [("maxElement", goValToJson p.maxElement)])

/-- Decoding of the position JSON object by `json.Unmarshal` into a fresh
`Position`: a missing or null `mode` field leaves the zero value `""`, a
non-string `mode` is a type error; the two `any` fields decode any JSON
value (numbers becoming `float64`) and default to nil when absent. -/
def jsonUnmarshalPosition (fields : SDKPosition) : Except GoErr Position := do
  let mode ← match lookupJ fields "mode" with
    | none => pure ""
    | some .null => pure ""
    | some (.str s) => pure s
    | some _ => Except.error (.str "json: cannot unmarshal into PositionMode")
  let lpv := ((lookupJ fields "lastProcessedValue").map jsonToGoVal).getD .null
  let maxE := ((lookupJ fields "maxElement").map jsonToGoVal).getD .null
  pure ⟨mode, lpv, maxE⟩

/-- ParsePosition: nil `sdk.Position` yields `ErrNilSDKPosition`; otherwise
unmarshal, wrapping any unmarshal error. -/
def parsePosition : Option SDKPosition → Except GoErr Position
  | none => .error ErrNilSDKPosition
  | some fields =>
    match jsonUnmarshalPosition fields with
    | .error e => .error (.wrap "unmarshal sdk.Position into position" e)
    | .ok p => .ok p

/-! ## Snapshot iterator (src/unnamed/part_005, `Snapshot`) -/

/-- The configured entity type (config.EntityType). -/
inductive EntityType where
  | node
  | relationship
deriving DecidableEq, Repr

/-- Source records as the iterator emits them (`sdk.Record`): operation
kind, marshalled position, structured key, the entity-labels metadata
field and the structured payload.  The created-at metadata timestamp is
wall-clock time and is left out of the model. -/
inductive Operation where
  | create
  | update
  | delete
  | snapshot
deriving DecidableEq, Repr

/-- A record produced by `Snapshot.Next`. -/
structure SrcRecord where
  operation : Operation
  position : SDKPosition
  key : Props
  metadataLabels : String
  payload : Props
deriving DecidableEq, Repr

/-- The mutable state of the `Snapshot` iterator.  The `records` channel
(capacity `batchSize`) is modelled as the list of queued rows. -/
structure Snapshot where
  orderingProperty : String
  keyProperties : List String
  orderingPropertyMaxValue : GoVal
  entityType : EntityType
  entityLabels : String
  batchSize : Nat
  position : Option Position
  records : List Props
  polling : Bool
deriving DecidableEq, Repr

/-- Incoming params for the snapshot constructors (`SnapshotParams`;
driver and database name are carried by the `DB` oracle instead). -/
structure SnapshotParams where
  orderingProperty : String
  keyProperties : List String
  entityType : EntityType
  entityLabels : List String
  batchSize : Nat
  position : Option Position
deriving Repr

/-- The Neo4j driver as the iterator uses it: `run` executes a read query
with bind parameters and yields the processed rows (one property map per
returned element), and `single` executes a query and extracts the single
result record, as `result.Single` does. -/
structure DB where
  run : String → Props → Except GoErr (List Props)
  single : String → Except GoErr Props

/-- Condition `s.orderingPropertyMaxValue != nil` of `loadBatch`. -/
def Snapshot.hasMaxValue (s : Snapshot) : Bool :=
  ¬ s.orderingPropertyMaxValue.isNull

/-- Condition `s.position != nil && s.position.LastProcessedValue != nil`
of `loadBatch`. -/
def Snapshot.hasLastProcessed (s : Snapshot) : Bool :=
  match s.position with
  | some p => ¬ p.lastProcessedValue.isNull
  | none => false

/-- The WHERE clause `loadBatch` accumulates: the `<= $opmv` bound when a
max ordering value is present, the `> $opv` bound when a last processed
value is present, separated by AND when both are. -/
def Snapshot.whereClause (s : Snapshot) : String :=
  (if s.hasMaxValue then "obj." ++ s.orderingProperty ++ " <= $opmv" else "")
    ++ (if s.hasMaxValue && s.hasLastProcessed then " AND " else "")
    ++ (if s.hasLastProcessed then "obj." ++ s.orderingProperty ++ " > $opv" else "")

/-- The bind parameters `loadBatch` passes along with the query. -/
def Snapshot.queryParams (s : Snapshot) : Props :=
  (if s.hasMaxValue then [("opmv", s.orderingPropertyMaxValue)] else [])
    ++ (if s.hasLastProcessed then
          [("opv", (match s.position with
                    | some p => p.lastProcessedValue
                    | none => .null))]
        else [])

/-- The batch query `loadBatch` builds: `getNodesQueryTemplate` or
`getRelationshipsQueryTemplate` instantiated with the entity labels, the
WHERE clause and the batch size. -/
def Snapshot.query (s : Snapshot) : String :=
  match s.entityType with
  | .node =>
    "MATCH (obj:" ++ s.entityLabels ++ ") WHERE " ++ s.whereClause
      ++ " RETURN obj LIMIT " ++ toString s.batchSize
  | .relationship =>
    "MATCH (src)-[obj:" ++ s.entityLabels ++ "]->(trgt) WHERE " ++ s.whereClause
      ++ " RETURN obj, src, trgt LIMIT " ++ toString s.batchSize

/-- Snapshot.loadBatch: run the batch query and queue the returned rows on
the records channel.  Errors are wrapped as `execute read`. -/
def loadBatch (db : DB) (s : Snapshot) : Except GoErr Snapshot :=
  match db.run s.query s.queryParams with
  | .error e => .error (.wrap "execute read" e)
  | .ok rows => .ok { s with records := s.records ++ rows }

/-- Snapshot.HasNext: true immediately when rows are queued, otherwise load
one batch and report whether anything is queued now. -/
def hasNext (db : DB) (s : Snapshot) : Except GoErr (Bool × Snapshot) :=
  if s.records.length > 0 then .ok (true, s)
  else
    match loadBatch db s with
    | .error e => .error (.wrap "load batch" e)
    | .ok s2 => .ok (s2.records.length > 0, s2)

/-- Outcome of `Snapshot.Next`: the Go method blocks on an empty channel
(`blocked`), fails when a configured key property is absent from the row
(`err`, after the position was already advanced), or emits a record. -/
inductive NextResult where
  | blocked
  | err (e : GoErr) (s : Snapshot)
  | ok (r : SrcRecord) (s : Snapshot)
deriving Repr

/-- Key construction of `Snapshot.Next`: one entry per configured key
property, failing when the row lacks one. -/
def buildKey (keyProperties : List String) (record : Props) : Except GoErr Props :=
  match keyProperties with
  | [] => .ok []
  | kp :: rest =>
    match lookupP record kp with
    | none => .error (.str ("payload doesn't contain " ++ kp ++ " property"))
    | some v => (buildKey rest record).map (fun ps => (kp, v) :: ps)

/-- Snapshot.Next: dequeue a row, advance the position (mode
`snapshot_polling` when polling, `snapshot` otherwise; last processed value
taken from the row's ordering property; max element carried over), build
the key from the configured key properties, and emit a create record when
polling, a snapshot record otherwise. -/
def nextRecord (s : Snapshot) : NextResult :=
  match s.records with
  | [] => .blocked
  | record :: rest =>
    let mode := if s.polling then ModeSnapshotPolling else ModeSnapshot
    let pos : Position :=
      ⟨mode, (lookupP record s.orderingProperty).getD .null, s.orderingPropertyMaxValue⟩
    let s2 := { s with records := rest, position := some pos }
    match buildKey s.keyProperties record with
    | .error e => .err e s2
    | .ok key =>
      let op := if s.polling then Operation.create else Operation.snapshot
      .ok ⟨op, marshalSDKPosition pos, key, s.entityLabels, record⟩ s2

/-- getMaxPropertyValue: query the maximum ordering-property value; the
driver's "no more records" usage error becomes `errNoElements`; other
single-extraction failures and missing columns are wrapped. -/
def getMaxPropertyValue (db : DB) (labels property : String)
    (entityType : EntityType) : Except GoErr GoVal :=
  let query : String :=
    match entityType with
    | .node =>
      "MATCH (obj:" ++ labels ++ ") RETURN obj." ++ property ++ " as " ++ property
        ++ " ORDER BY obj." ++ property ++ " DESC LIMIT 1"
    | .relationship =>
      "MATCH ()-[obj:" ++ labels ++ "]-() RETURN obj." ++ property ++ " as " ++ property
        ++ " ORDER BY obj." ++ property ++ " DESC LIMIT 1"
  match db.single query with
  | .error e =>
    match errorsAsUsage e with
    | some msg =>
      if msg = neo4jNoMoreRecordsErrorMessage then
        .error (.wrap "execute read" errNoElements)
      else
        .error (.wrap "execute read" (.wrap "extract single from result" e))
    | none => .error (.wrap "execute read" (.wrap "extract single from result" e))
  | .ok record =>
    match lookupP record property with
    | none => .error (.wrap "execute read" (.str ("record doesn't contain " ++ property ++ " property")))
    | some v => .ok v

/-- The max-ordering-value determination of `NewSnapshot`: take it from
the resumed position when it carries one, otherwise query it, swallowing
`errNoElements` (the max stays nil, as for an empty entity set). -/
def snapshotMaxValue (db : DB) (params : SnapshotParams) (entityLabels : String) :
    Except GoErr GoVal :=
  match params.position with
  | some pos =>
    if ¬ pos.maxElement.isNull then pure pos.maxElement
    else
      match getMaxPropertyValue db entityLabels params.orderingProperty params.entityType with
      | .ok v => pure v
      | .error e =>
        if errorsIs e errNoElements then pure .null
        else Except.error (.wrap "get ordering property max value" e)
  | none =>
    match getMaxPropertyValue db entityLabels params.orderingProperty params.entityType with
    | .ok v => pure v
    | .error e =>
      if errorsIs e errNoElements then pure .null
      else Except.error (.wrap "get ordering property max value" e)

/-- NewSnapshot: determine the max ordering value, then build the iterator;
the records channel starts empty (capacity `batchSize`) and polling is off. -/
def NewSnapshot (db : DB) (params : SnapshotParams) : Except GoErr Snapshot := do
  let entityLabels := String.intercalate ":" params.entityLabels
  let maxValue : GoVal ← snapshotMaxValue db params entityLabels
  pure
    { orderingProperty := params.orderingProperty
      keyProperties := params.keyProperties
      orderingPropertyMaxValue := maxValue
      entityType := params.entityType
      entityLabels := entityLabels
      batchSize := params.batchSize
      position := params.position
      records := []
      polling := false }

/-- The position seeding of `NewPollingSnapshot`: keep a resumed position,
otherwise capture the current max ordering value (nil for an empty set) as
the initial last processed value of a `snapshot_polling` position. -/
def pollingStartPosition (db : DB) (params : SnapshotParams) (entityLabels : String) :
    Except GoErr (Option Position) :=
  match params.position with
  | some p => pure (some p)
  | none =>
    match getMaxPropertyValue db entityLabels params.orderingProperty params.entityType with
    | .ok v => pure (some ⟨ModeSnapshotPolling, v, .null⟩)
    | .error e =>
      if errorsIs e errNoElements then pure (some ⟨ModeSnapshotPolling, .null, .null⟩)
      else Except.error (.wrap "get ordering property max value" e)

/-- NewPollingSnapshot: seed the position, then build the iterator; it
keeps no max bound and has polling on. -/
def NewPollingSnapshot (db : DB) (params : SnapshotParams) : Except GoErr Snapshot := do
  let entityLabels := String.intercalate ":" params.entityLabels
  let pos : Option Position ← pollingStartPosition db params entityLabels
  pure
    { orderingProperty := params.orderingProperty
      keyProperties := params.keyProperties
      orderingPropertyMaxValue := .null
      entityType := params.entityType
      entityLabels := entityLabels
      batchSize := params.batchSize
      position := pos
      records := []
      polling := true }

/-! ## A concrete database oracle

`graphDB` interprets the queries the iterator generates over an in-memory
graph given as a list of property rows.  Cypher comparison semantics:
numbers compare numerically, strings lexicographically, anything involving
null or mixed kinds is not true.  The LIMIT the batch query embeds is the
snapshot's batch size, so the model database is instantiated with that
limit; Cypher rejects a WHERE clause with an empty predicate, which the
model reports as a syntax error. -/

/-- Cypher `a <= b` on property values. -/
def goValLe : GoVal → GoVal → Bool
  | .int a, .int b => a ≤ b
  | .int a, .float b => a ≤ b
  | .float a, .int b => a ≤ b
  | .float a, .float b => a ≤ b
  | .str a, .str b => a ≤ b
  | _, _ => false

/-- Cypher `a > b` on property values. -/
def goValGt : GoVal → GoVal → Bool
  | .int a, .int b => a > b
  | .int a, .float b => a > b
  | .float a, .int b => a > b
  | .float a, .float b => a > b
  | .str a, .str b => a > b
  | _, _ => false

/-- The graph: one property row per entity. -/
abbrev Graph := List Props

/-- Whether a row satisfies the batch query's WHERE conditions, given the
optional `$opmv` and `$opv` parameters (a row lacking the ordering
property never satisfies a bound). -/
def rowMatches (prop : String) (opmv opv : Option GoVal) (row : Props) : Bool :=
  (match opmv with
   | some m => (match lookupP row prop with
                | some v => goValLe v m
                | none => false)
   | none => true)
  && (match opv with
      | some l => (match lookupP row prop with
                   | some v => goValGt v l
                   | none => false)
      | none => true)

/-- Whether a character sequence starts with the given pattern. -/
def startsSeq : List Char → List Char → Bool
  | [], _ => true
  | _ :: _, [] => false
  | a :: pat, b :: l => a = b && startsSeq pat l

/-- Whether a character sequence contains the given pattern. -/
def containsSeq (pat : List Char) : List Char → Bool
  | [] => startsSeq pat []
  | b :: l => startsSeq pat (b :: l) || containsSeq pat l

/-- Whether a generated query has an empty WHERE predicate (the Cypher
parser rejects `WHERE` directly followed by `RETURN`). -/
def hasEmptyWherePredicate (q : String) : Bool :=
  containsSeq "WHERE  RETURN".data q.data

/-- The row with the maximal ordering-property value (what the `ORDER BY
... DESC LIMIT 1` max query returns on a non-empty graph). -/
def maxPropRow (prop : String) (row : Props) (rest : Graph) : Props :=
  match rest with
  | [] => row
  | r :: rs =>
    let best := maxPropRow prop row rs
    if goValGt ((lookupP r prop).getD .null) ((lookupP best prop).getD .null) then r
    else best

/-- Execution of a generated batch query over the in-memory graph: the
rows satisfying the WHERE parameters, capped at the embedded LIMIT; a
query with an empty WHERE predicate is a syntax error. -/
def graphRunQuery (g : Graph) (prop : String) (lim : Nat) (q : String) (params : Props) :
    Except GoErr (List Props) :=
  if hasEmptyWherePredicate q then
    .error (.usage "SyntaxError: expected an expression after WHERE")
  else
    .ok ((g.filter (rowMatches prop (lookupP params "opmv") (lookupP params "opv"))).take lim)

/-- Execution of the max-ordering-value query over the in-memory graph:
the single-record extraction fails with the driver's no-more-records usage
error on an empty graph. -/
def graphSingleMax (g : Graph) (prop : String) : Except GoErr Props :=
  match g with
  | [] => .error (.usage neo4jNoMoreRecordsErrorMessage)
  | row :: rest =>
    let best := maxPropRow prop row rest
    .ok [(prop, (lookupP best prop).getD .null)]

/-- A database oracle over an in-memory graph.  `prop` is the ordering
property the connector is configured with and `lim` the LIMIT embedded in
the generated batch query (the snapshot's batch size). -/
def graphDB (g : Graph) (prop : String) (lim : Nat) : DB :=
  ⟨graphRunQuery g prop lim, fun _ => graphSingleMax g prop⟩

/-- The send loop of `processNeo4jResult` over a channel of capacity `cap`
holding `q`: sending each row in turn, `none` when a send would block. -/
def chanSendAll (cap : Nat) (q : List Props) : List Props → Option (List Props)
  | [] => some q
  | r :: rs => if q.length < cap then chanSendAll cap (q ++ [r]) rs else none

/-! ## Source orchestrator (src/source/source.go) -/

/-- The source configuration fields `Open` feeds into the iterators. -/
structure SourceConfig where
  orderingProperty : String
  keyProperties : List String
  entityType : EntityType
  entityLabels : List String
  batchSize : Nat
  snapshot : Bool
deriving Repr

/-- The iterator params `Open` builds from the config and parsed position. -/
def SourceConfig.params (cfg : SourceConfig) (pos : Option Position) : SnapshotParams :=
  { orderingProperty := cfg.orderingProperty
    keyProperties := cfg.keyProperties
    entityType := cfg.entityType
    entityLabels := cfg.entityLabels
    batchSize := cfg.batchSize
    position := pos }

/-- The source's iterator fields after `Open`. -/
structure SourceState where
  snapshot : Option Snapshot
  pollingSnapshot : Option Snapshot
deriving Repr

/-- The position-parsing step of `Open`: a nil-position error is ignored
(leaving no position), other parse errors abort. -/
def sourceParsedPosition (sdkPosition : Option SDKPosition) : Except GoErr (Option Position) :=
  match parsePosition sdkPosition with
  | .error e => if errorsIs e ErrNilSDKPosition then .ok none else .error (.wrap "parse position" e)
  | .ok p => .ok (some p)

/-- The position side of Open's snapshot-construction condition:
`position == nil || position.Mode == iterator.ModeSnapshot`. -/
def snapshotModeCond (pos : Option Position) : Bool :=
  match pos with
  | none => true
  | some p => p.mode = ModeSnapshot

/-- Source.Open: parse the prior position, always construct the polling
iterator from it, and construct the snapshot iterator only when the
snapshot feature is on and there is no prior position or its mode is
`snapshot`. -/
def sourceOpen (db : DB) (cfg : SourceConfig) (sdkPosition : Option SDKPosition) :
    Except GoErr SourceState := do
  let pos ← sourceParsedPosition sdkPosition
  let poll ←
    match NewPollingSnapshot db (cfg.params pos) with
    | .error e => Except.error (.wrap "init polling snapshot iterator" e)
    | .ok it => pure it
  if cfg.snapshot && snapshotModeCond pos then
    match NewSnapshot db (cfg.params pos) with
    | .error e => Except.error (.wrap "init snapshot iterator" e)
    | .ok snap => pure ⟨some snap, some poll⟩
  else
    pure ⟨none, some poll⟩

/-- Outcome of one `Read` call (the source package `read` helper): a
record, the backoff-retry signal, or a fatal error. -/
inductive ReadOutcome where
  | emitted (r : SrcRecord)
  | backoff
  | fatal (e : GoErr)
deriving Repr

/-- The `read` helper: `HasNext` then `Next`, returning backoff when the
iterator has nothing, together with the iterator's updated state. -/
def readIter (db : DB) (it : Snapshot) : ReadOutcome × Snapshot :=
  match hasNext db it with
  | .error e => (.fatal (.wrap "has next" e), it)
  | .ok (false, it2) => (.backoff, it2)
  | .ok (true, it2) =>
    match nextRecord it2 with
    | .blocked => (.fatal (.str "blocked on records channel"), it2)
    | .err e it3 => (.fatal (.wrap "get next record" e), it3)
    | .ok r it3 => (.emitted r, it3)

/-- Source.Read: while a snapshot iterator exists delegate to it, and on
its backoff signal discard it for good and serve the same call from the
polling iterator; without a snapshot iterator serve from polling; with no
iterator at all fail with `errNoIterator`. -/
def sourceRead (db : DB) (s : SourceState) : ReadOutcome × SourceState :=
  match s.snapshot with
  | some snap =>
    match readIter db snap with
    | (.emitted r, snap2) => (.emitted r, { s with snapshot := some snap2 })
    | (.fatal e, snap2) => (.fatal e, { s with snapshot := some snap2 })
    | (.backoff, _) =>
      match s.pollingSnapshot with
      | some poll =>
        let res := readIter db poll
        (res.1, ⟨none, some res.2⟩)
      | none => (.fatal (.str "nil polling iterator"), ⟨none, none⟩)
  | none =>
    match s.pollingSnapshot with
    | some poll =>
      let res := readIter db poll
      (res.1, ⟨none, some res.2⟩)
    | none => (.fatal errNoIterator, s)

/-- Iterated `Read` calls, keeping only the evolving source state. -/
def sourceReadIter (db : DB) : Nat → SourceState → SourceState
  | 0, s => s
  | n + 1, s => sourceReadIter db n (sourceRead db s).2

/-! ## Destination writer (src/destination/writer/writer.go)

The writer's statement synthesis is pure string and map manipulation; the
database session and the `structurizeRawData` JSON step are outside these
definitions (the claims below take already-structurized key and payload
maps, matching their "parseable" hypotheses). -/

/-- Sentinel `writer.ErrEmptySourceNode`. -/
def ErrEmptySourceNode : GoErr := .sentinel "source node is empty"

/-- Sentinel `writer.ErrEmptyTargetNode`. -/
def ErrEmptyTargetNode : GoErr := .sentinel "target node is empty"

/-- The decoded `schema.Node`: labels plus key properties. -/
structure SchemaNode where
  labels : List String
  key : Props
deriving DecidableEq, Repr

/-- The `mapstructure.Decode` of a payload field into a `schema.Node`:
succeeds on a node descriptor object, fails on a primitive. -/
def decodeNode : WVal → Except GoErr SchemaNode
  | .node labels key => .ok ⟨labels, key⟩
  | .prim _ => .error (.str "decode node: unsupported type")

/-- The `strings.Builder` accumulation of the clause builders: write the
fragments one after the other. -/
def concatAll : List String → String
  | [] => ""
  | s :: ss => s ++ concatAll ss

/-- Writer.cypherMatchProperties: one `name:$PFXname` fragment per
property, each followed by `, `, with the trailing separator trimmed.
Generic in the value type since the Go method only reads the names. -/
def cypherMatchProperties (properties : List (String × α)) (interpolationPfx : String) : String :=
  trimRightCommaSpace
    (concatAll (properties.map fun p => p.1 ++ ":" ++ "$" ++ interpolationPfx ++ p.1 ++ ", "))

/-- Writer.cypherSetProperties: one `obj.name=$name` fragment per property
whose name is not a key name, with the trailing separator trimmed. -/
def cypherSetProperties (properties : List (String × α)) (key : List (String × β)) : String :=
  trimRightCommaSpace
    (concatAll ((properties.filter fun p => ¬ (key.find? fun kp => kp.1 = p.1).isSome).map
      fun p => "obj." ++ p.1 ++ "=" ++ "$" ++ p.1 ++ ", "))

/-- The pure core of Writer.handleUpdate on structurized key and payload:
strip the reserved relationship fields from the payload, merge the key
fields into the bind-parameter map without overwriting existing names,
and build the MATCH clause from the key and the SET clause from the
non-key bound properties; returns the statement and the bind map. -/
def handleUpdateQuery (entityLabels : String) (entityType : EntityType)
    (key payload : WProps) : String × WProps :=
  let properties := deleteW (deleteW payload "sourceNode") "targetNode"
  let properties :=
    properties ++ (key.filter fun kp => ¬ (lookupW properties kp.1).isSome)
  let matchClause := cypherMatchProperties key ""
  let setClause := cypherSetProperties properties key
  let query :=
    match entityType with
    | .node =>
      "MATCH (obj:" ++ entityLabels ++ " \x7b" ++ matchClause ++ "\x7d) SET " ++ setClause
    | .relationship =>
      "MATCH ()-[obj:" ++ entityLabels ++ " \x7b" ++ matchClause ++ "\x7d]->() SET " ++ setClause
  (query, properties)

/-- Writer.sourceTargetNodesFromProperties: extract and decode the two
reserved descriptor fields, removing each from the properties map. -/
def sourceTargetNodesFromProperties (properties : WProps) :
    Except GoErr (SchemaNode × SchemaNode × WProps) := do
  let sourceNodeRaw ←
    match lookupW properties "sourceNode" with
    | none => Except.error ErrEmptySourceNode
    | some raw => pure raw
  let sourceNode ← decodeNode sourceNodeRaw
  let properties := deleteW properties "sourceNode"
  let targetNodeRaw ←
    match lookupW properties "targetNode" with
    | none => Except.error ErrEmptyTargetNode
    | some raw => pure raw
  let targetNode ← decodeNode targetNodeRaw
  let properties := deleteW properties "targetNode"
  pure (sourceNode, targetNode, properties)

/-- Result of the pure core of Writer.createRelationship. -/
structure RelCreate where
  query : String
  bound : WProps
  sourceNode : SchemaNode
  targetNode : SchemaNode
  relProperties : WProps
deriving Repr

/-- Prefixed endpoint-key merge of `createRelationship`: each endpoint key
property is bound under its prefixed name unless that name is taken. -/
def mergePrefixed (props : WProps) (pfx : String) (key : Props) : WProps :=
  key.foldl
    (fun acc kv =>
      if (lookupW acc (pfx ++ kv.1)).isSome then acc
      else acc ++ [(pfx ++ kv.1, WVal.prim kv.2)])
    props

/-- The pure core of Writer.createRelationship on a structurized payload:
extract and remove the endpoint descriptors, build the source-node match
clause with parameter prefix `src_`, the target-node match clause with
prefix `trgt_` and the unprefixed relationship-create clause, assemble the
single MATCH-MATCH-CREATE statement, and bind the remaining relationship
properties plus the prefixed endpoint keys. -/
def createRelationshipQuery (entityLabels : String) (payload : WProps) :
    Except GoErr RelCreate := do
  let (sourceNode, targetNode, properties) ← sourceTargetNodesFromProperties payload
  let sourceNodeLabels := String.intercalate ":" sourceNode.labels
  let sourceNodeClause := cypherMatchProperties sourceNode.key "src_"
  let targetNodeLabels := String.intercalate ":" targetNode.labels
  let targetNodeClause := cypherMatchProperties targetNode.key "trgt_"
  let relationshipClause := cypherMatchProperties properties ""
  let query :=
    "MATCH (src:" ++ sourceNodeLabels ++ " \x7b" ++ sourceNodeClause
      ++ "\x7d) MATCH (trgt:" ++ targetNodeLabels ++ " \x7b" ++ targetNodeClause
      ++ "\x7d) CREATE (src)-[obj:" ++ entityLabels ++ " \x7b" ++ relationshipClause
      ++ "\x7d]->(trgt)"
  let bound := mergePrefixed (mergePrefixed properties "src_" sourceNode.key) "trgt_" targetNode.key
  pure ⟨query, bound, sourceNode, targetNode, properties⟩

/-- The parameter names the statement uses for the two endpoint matches. -/
def RelCreate.endpointParamNames (rc : RelCreate) : List String :=
  rc.sourceNode.key.map (fun p => "src_" ++ p.1) ++ rc.targetNode.key.map (fun p => "trgt_" ++ p.1)

/-- The parameter names the relationship-create clause uses. -/
def RelCreate.relParamNames (rc : RelCreate) : List String :=
  rc.relProperties.map (·.1)

/-! ## Destination.Write (src/destination/destination.go) -/

/-- The loop of Destination.Write from index `i` on: stop at the first
record the writer rejects, reporting its index and the wrapped error. -/
def destinationWriteAux (w : α → Option GoErr) (i : Nat) : List α → Nat × Option GoErr
  | [] => (i, none)
  | r :: rs =>
    match w r with
    | some e => (i, some (.wrap "write record" e))
    | none => destinationWriteAux w (i + 1) rs

/-- Destination.Write over a batch, with the per-record writer given as an
oracle returning `some err` on failure: the successful count and the
error, `(len, none)` when every record succeeds. -/
def destinationWrite (w : α → Option GoErr) (records : List α) : Nat × Option GoErr :=
  destinationWriteAux w 0 records

/-! ## Shared lemmas -/

/-- Property names fed to the clause builders are well formed when they are
nonempty and do not end in one of the separator characters the builders
trim (names produced by JSON keys in practice). -/
def lastCharOk (f : String) : Bool :=
  match f.data.reverse with
  | [] => false
  | c :: _ => ¬ commaSpace c

theorem lastCharOk_data_ne {f : String} (h : lastCharOk f = true) : f.data ≠ [] := by
  intro hnil
  simp [lastCharOk, hnil] at h

theorem lastCharOk_append (a b : String) (hb : b.data ≠ []) :
    lastCharOk (a ++ b) = lastCharOk b := by
  obtain ⟨c, rest, hr⟩ : ∃ c rest, b.data.reverse = c :: rest := by
    cases hbr : b.data.reverse with
    | nil => exact absurd (List.reverse_eq_nil_iff.mp hbr) hb
    | cons c rest => exact ⟨c, rest, rfl⟩
  simp [lastCharOk, String.data_append, List.reverse_append, hr]

theorem trimRightCommaSpace_data (s : String) :
    (trimRightCommaSpace s).data = (s.data.reverse.dropWhile commaSpace).reverse := rfl

theorem trimRightCommaSpace_append_sep (f : String) (h : lastCharOk f = true) :
    trimRightCommaSpace (f ++ ", ") = f := by
  obtain ⟨c, rest, hr⟩ : ∃ c rest, f.data.reverse = c :: rest := by
    cases hbr : f.data.reverse with
    | nil => simp [lastCharOk, hbr] at h
    | cons c rest => exact ⟨c, rest, rfl⟩
  have hc : commaSpace c = false := by
    simp [lastCharOk, hr] at h
    simpa using h
  apply String.ext
  rw [trimRightCommaSpace_data, String.data_append]
  have hsep : (", " : String).data = [',', ' '] := rfl
  rw [hsep, List.reverse_append, hr]
  show (List.dropWhile commaSpace (' ' :: ',' :: c :: rest)).reverse = f.data
  rw [List.dropWhile_cons_of_pos (by simp [commaSpace]),
    List.dropWhile_cons_of_pos (by simp [commaSpace]),
    List.dropWhile_cons_of_neg (by simp [hc])]
  rw [← hr, List.reverse_reverse]

theorem trimRightCommaSpace_append_left (a b : String)
    (hb : trimRightCommaSpace b ≠ "") :
    trimRightCommaSpace (a ++ b) = a ++ trimRightCommaSpace b := by
  have hdrop : b.data.reverse.dropWhile commaSpace ≠ [] := by
    intro h0
    apply hb
    apply String.ext
    rw [trimRightCommaSpace_data, h0]
    rfl
  apply String.ext
  rw [trimRightCommaSpace_data, String.data_append, String.data_append,
    trimRightCommaSpace_data, List.reverse_append]
  rw [List.dropWhile_append]
  simp only [List.isEmpty_iff]
  rw [if_neg hdrop, List.reverse_append, List.reverse_reverse]

theorem joinSep_ne_empty (g : String) (gs : List String) (hg : g.data ≠ []) :
    joinSep ", " (g :: gs) ≠ "" := by
  intro h0
  cases gs with
  | nil => exact hg (congrArg String.data h0)
  | cons y ys =>
    have : (g ++ ", " ++ joinSep ", " (y :: ys)).data = [] := congrArg String.data h0
    rw [String.data_append, String.data_append] at this
    exact hg (List.append_eq_nil.mp (List.append_eq_nil.mp this).1).1

/-- The builder loop plus trailing trim equals the separator-join of the
fragments, for well-formed fragments. -/
theorem trim_concat_eq_joinSep (frs : List String)
    (h : ∀ f ∈ frs, lastCharOk f = true) :
    trimRightCommaSpace (concatAll (frs.map fun f => f ++ ", ")) = joinSep ", " frs := by
  induction frs with
  | nil => rfl
  | cons f fs ih =>
    cases fs with
    | nil =>
      show trimRightCommaSpace ((f ++ ", ") ++ concatAll []) = f
      have h1 : (f ++ ", ") ++ concatAll [] = f ++ ", " := by
        apply String.ext
        simp [concatAll, String.data_append]
      rw [h1, trimRightCommaSpace_append_sep f (h f (by simp))]
    | cons g gs =>
      have hg := ih (fun x hx => h x (List.mem_cons_of_mem f hx))
      have hne : trimRightCommaSpace (concatAll ((g :: gs).map fun f => f ++ ", ")) ≠ "" := by
        rw [hg]
        exact joinSep_ne_empty g gs (lastCharOk_data_ne (h g (by simp)))
      show trimRightCommaSpace ((f ++ ", ") ++ concatAll ((g :: gs).map fun f => f ++ ", ")) =
        joinSep ", " (f :: g :: gs)
      rw [trimRightCommaSpace_append_left _ _ hne, hg]
      rfl

theorem lookupA_append (a b : List (String × α)) (n : String) :
    lookupA (a ++ b) n = ((lookupA a n).map some).getD (lookupA b n) := by
  induction a with
  | nil => simp [lookupA]
  | cons p ps ih =>
    by_cases hp : p.1 = n
    · simp [lookupA, List.find?, hp]
    · simpa [lookupA, List.find?, hp] using ih

theorem lookupA_filter (l : List (String × α)) (q : String × α → Bool) (n : String)
    (hq : ∀ p ∈ l, p.1 = n → q p = true) :
    lookupA (l.filter q) n = lookupA l n := by
  induction l with
  | nil => rfl
  | cons p ps ih =>
    have ihq := ih (fun x hx h1 => hq x (List.mem_cons_of_mem p hx) h1)
    by_cases hp : p.1 = n
    · rw [List.filter_cons, if_pos (hq p (by simp) hp)]
      simp [lookupA, List.find?, hp]
    · rw [List.filter_cons]
      by_cases hqp : q p = true
      · rw [if_pos hqp]
        simpa [lookupA, List.find?, hp] using ihq
      · rw [if_neg hqp]
        rw [ihq]
        simp [lookupA, List.find?, hp]

theorem chanSendAll_of_fits (cap : Nat) (rows q : List Props)
    (h : q.length + rows.length ≤ cap) :
    chanSendAll cap q rows = some (q ++ rows) := by
  induction rows generalizing q with
  | nil => simp [chanSendAll]
  | cons r rs ih =>
    have hlt : q.length < cap := by simp at h; omega
    rw [chanSendAll, if_pos hlt, ih (q ++ [r]) (by simp at h ⊢; omega)]
    simp

/-! ## Claim C4: position round trip -/

/-- Claim C4 as stated is false on the code: marshalling a `Position` whose
`lastProcessedValue` is the `int64` value 5 and parsing it back yields the
`float64` value 5 (Go JSON decoding into `any`), not an identical
`Position`; the numeric type is not preserved. -/
theorem position_round_trip_counterexample :
    parsePosition (some (marshalSDKPosition ⟨ModeSnapshot, .int 5, .null⟩)) ≠
      .ok ⟨ModeSnapshot, .int 5, .null⟩ := by
  intro h
  have h2 : parsePosition (some (marshalSDKPosition ⟨ModeSnapshot, .int 5, .null⟩)) =
      .ok ⟨ModeSnapshot, .float 5, .null⟩ := rfl
  rw [h2] at h
  exact absurd (Except.ok.inj h) (by simp)

/-- Claim C4 amended: marshalling any `Position` with `MarshalSDKPosition`
and parsing with `ParsePosition` preserves the mode and preserves the two
values up to Go's JSON decoding of numbers into `float64`; the round trip
is the identity exactly on positions whose values are not `int64`. -/
theorem position_round_trip (p : Position) :
    parsePosition (some (marshalSDKPosition p)) =
      .ok ⟨p.mode, goValJsonRT p.lastProcessedValue, goValJsonRT p.maxElement⟩ ∧
    (p.lastProcessedValue.isInt = false → p.maxElement.isInt = false →
      parsePosition (some (marshalSDKPosition p)) = .ok p) ∧
    (∀ v : GoVal, goValJsonRT v = v ↔ v.isInt = false) := by
  have hrt : ∀ v : GoVal, goValJsonRT v = v ↔ v.isInt = false := by
    intro v
    cases v <;> simp [goValJsonRT, goValToJson, jsonToGoVal, GoVal.isInt]
  have hmain : parsePosition (some (marshalSDKPosition p)) =
      .ok ⟨p.mode, goValJsonRT p.lastProcessedValue, goValJsonRT p.maxElement⟩ := by
    cases hm : p.maxElement <;>
      simp [parsePosition, marshalSDKPosition, jsonUnmarshalPosition, lookupJ, lookupA,
        List.find?, GoVal.isNull, goValJsonRT, goValToJson, jsonToGoVal, hm, pure,
        Except.pure, Bind.bind, Except.bind]
  refine ⟨hmain, ?_, hrt⟩
  intro h1 h2
  rw [hmain, (hrt p.lastProcessedValue).mpr h1, (hrt p.maxElement).mpr h2]

/-! ## Claim C8: Destination.Write partial-failure semantics -/

theorem destinationWriteAux_all_ok (w : α → Option GoErr) (rs : List α) (i : Nat)
    (h : ∀ r ∈ rs, w r = none) :
    destinationWriteAux w i rs = (i + rs.length, none) := by
  induction rs generalizing i with
  | nil => simp [destinationWriteAux]
  | cons r rest ih =>
    rw [destinationWriteAux, h r (by simp)]
    rw [ih (i + 1) (fun x hx => h x (by simp [hx]))]
    have harith : i + 1 + rest.length = i + (r :: rest).length := by
      simp
      omega
    rw [harith]

theorem destinationWriteAux_first_fail (w : α → Option GoErr) (rs : List α)
    (i0 i : Nat) (r : α) (e : GoErr)
    (hget : rs.get? i = some r) (hw : w r = some e)
    (hpre : ∀ x ∈ rs.take i, w x = none) :
    destinationWriteAux w i0 rs = (i0 + i, some (.wrap "write record" e)) := by
  induction rs generalizing i0 i with
  | nil => simp at hget
  | cons x rest ih =>
    cases i with
    | zero =>
      simp at hget
      simp [destinationWriteAux, hget, hw]
    | succ j =>
      have hx : w x = none := hpre x (by simp)
      rw [destinationWriteAux, hx]
      have hget2 : rest.get? j = some r := hget
      have hpre2 : ∀ y ∈ rest.take j, w y = none := by
        intro y hy
        exact hpre y (by simp [List.take_succ_cons, hy])
      have harith : i0 + 1 + j = i0 + (j + 1) := by omega
      rw [ih (i0 + 1) j hget2 hpre2, harith]

/-- Claim C8: Destination.Write processes the batch in order; when every
record succeeds it returns the batch length with no error, and when the
first failing record sits at index `i` (all records before it accepted by
the writer) it stops there and returns `i`, which equals the count of
successfully written records before the failure. -/
theorem destination_write_partial_failure (w : α → Option GoErr) (records : List α) :
    ((∀ r ∈ records, w r = none) → destinationWrite w records = (records.length, none)) ∧
    (∀ i r e, records.get? i = some r → w r = some e →
      (∀ x ∈ records.take i, w x = none) →
      destinationWrite w records = (i, some (.wrap "write record" e)) ∧
      ((records.take i).filter fun x => (w x).isNone).length = i) := by
  constructor
  · intro h
    have h0 := destinationWriteAux_all_ok w records 0 h
    simpa [destinationWrite] using h0
  · intro i r e hget hw hpre
    constructor
    · have h0 := destinationWriteAux_first_fail w records 0 i r e hget hw hpre
      simpa [destinationWrite] using h0
    · have hfil : (records.take i).filter (fun x => (w x).isNone) = records.take i := by
        apply List.filter_eq_self.mpr
        intro x hx
        simp [hpre x hx]
      obtain ⟨hlt, -⟩ := List.get?_eq_some.mp hget
      rw [hfil, List.length_take]
      omega

/-- Witness for C8 at a concrete batch: the writer rejects the record `7`
at index 1, so Write reports index 1 with one record written before it. -/
theorem destination_write_partial_failure_witness :
    destinationWrite (fun n : Nat => if n = 7 then some (.str "boom") else none) [1, 7, 9] =
      (1, some (.wrap "write record" (.str "boom"))) ∧
    (([1, 7, 9].take 1).filter
      (fun x => ((fun n : Nat => if n = 7 then some (GoErr.str "boom") else none) x).isNone)).length = 1 := by
  exact (destination_write_partial_failure
    (fun n : Nat => if n = 7 then some (.str "boom") else none) [1, 7, 9]).2
    1 7 (.str "boom") rfl rfl (by decide)

/-! ## Claim C2: HasNext and the batch query -/

theorem strAppendSplit (x u v t : String) : x ++ (u ++ v) ++ t = (x ++ u) ++ v ++ t := by
  rw [← String.append_assoc x u v]

theorem whereClause_both (prop : String) :
    ("obj." ++ prop ++ " <= $opmv") ++ " AND " ++ ("obj." ++ prop ++ " > $opv") =
      "obj." ++ prop ++ " <= $opmv AND obj." ++ prop ++ " > $opv" := by
  apply String.ext
  simp only [String.data_append, List.append_assoc]
  have hfold : ∀ X : List Char,
      " <= $opmv".data ++ (" AND ".data ++ ("obj.".data ++ X)) =
        " <= $opmv AND obj.".data ++ X := by
    intro X
    rw [← List.append_assoc, ← List.append_assoc]
    rfl
  rw [hfold]

/-- Claim C2: on every HasNext call, a non-empty queue answers true with no
query; an empty queue loads exactly one batch through the generated query
and answers whether anything was loaded.  The generated WHERE clause is the
`<= max AND > lastProcessed` range with the first conjunct omitted when no
max was captured and the second omitted when there is no last processed
value, the parameters bind those two values, and the query is limited to
`batchSize` rows. -/
theorem hasNext_loads_bounded_batch (db : DB) (s : Snapshot) :
    (s.records ≠ [] → hasNext db s = .ok (true, s)) ∧
    (s.records = [] → ∀ rows, db.run s.query s.queryParams = .ok rows →
      hasNext db s = .ok (!rows.isEmpty, { s with records := rows })) ∧
    s.whereClause =
      (if s.hasMaxValue && s.hasLastProcessed then
        "obj." ++ s.orderingProperty ++ " <= $opmv AND obj." ++ s.orderingProperty ++ " > $opv"
       else if s.hasMaxValue then "obj." ++ s.orderingProperty ++ " <= $opmv"
       else if s.hasLastProcessed then "obj." ++ s.orderingProperty ++ " > $opv"
       else "") ∧
    lookupP s.queryParams "opmv" =
      (if s.hasMaxValue then some s.orderingPropertyMaxValue else none) ∧
    lookupP s.queryParams "opv" =
      (if s.hasLastProcessed then
        some (match s.position with
              | some p => p.lastProcessedValue
              | none => .null)
       else none) ∧
    (∃ body : String, s.query = body ++ " LIMIT " ++ toString s.batchSize) := by
  refine ⟨?_, ?_, ?_, ?_, ?_, ?_⟩
  · intro h
    rw [hasNext, if_pos (List.length_pos.mpr h)]
  · intro h rows hrun
    have h1 : hasNext db s = .ok (decide (0 < rows.length), { s with records := rows }) := by
      simp [hasNext, loadBatch, hrun, h]
    rw [h1]
    cases rows <;> simp
  · cases hM : s.hasMaxValue <;> cases hL : s.hasLastProcessed <;>
      simp [Snapshot.whereClause, hM, hL]
    exact whereClause_both s.orderingProperty
  · cases hM : s.hasMaxValue <;> cases hL : s.hasLastProcessed <;>
      simp [Snapshot.queryParams, hM, hL, lookupP, lookupA, List.find?]
  · cases hM : s.hasMaxValue <;> cases hL : s.hasLastProcessed <;>
      simp [Snapshot.queryParams, hM, hL, lookupP, lookupA, List.find?]
  · have hsep : (" RETURN obj LIMIT " : String) = " RETURN obj" ++ " LIMIT " := rfl
    have hsepRel : (" RETURN obj, src, trgt LIMIT " : String) =
      " RETURN obj, src, trgt" ++ " LIMIT " := rfl
    cases hq : s.entityType with
    | node =>
      refine ⟨"MATCH (obj:" ++ s.entityLabels ++ ") WHERE " ++ s.whereClause
        ++ " RETURN obj", ?_⟩
      simp only [Snapshot.query, hq]
      rw [hsep, strAppendSplit]
    | relationship =>
      refine ⟨"MATCH (src)-[obj:" ++ s.entityLabels ++ "]->(trgt) WHERE " ++ s.whereClause
        ++ " RETURN obj, src, trgt", ?_⟩
      simp only [Snapshot.query, hq]
      rw [hsepRel, strAppendSplit]

/-- Concrete graph for the C2 witness. -/
def c2Graph : Graph := [[("id", GoVal.int 1)], [("id", GoVal.int 2)]]

/-- Concrete database oracle for the C2 witness. -/
def c2DB : DB := graphDB c2Graph "id" 3

/-- Concrete snapshot state for the C2 witness: resumed mid-stream with a
captured max, so both WHERE conjuncts are present. -/
def c2Snap : Snapshot :=
  { orderingProperty := "id"
    keyProperties := ["id"]
    orderingPropertyMaxValue := .int 5
    entityType := .node
    entityLabels := "Person"
    batchSize := 3
    position := some ⟨ModeSnapshot, .int 1, .int 5⟩
    records := []
    polling := false }

/-- Witness for C2: with an empty queue the call loads the one row of the
graph in range (1, 5] and reports true, and the WHERE clause carries both
conjuncts. -/
theorem hasNext_loads_bounded_batch_witness :
    hasNext c2DB c2Snap = .ok (true, { c2Snap with records := [[("id", GoVal.int 2)]] }) ∧
    c2Snap.whereClause = "obj.id <= $opmv AND obj.id > $opv" := by
  have h := hasNext_loads_bounded_batch c2DB c2Snap
  constructor
  · have h2 := h.2.1 rfl [[("id", GoVal.int 2)]] rfl
    simpa using h2
  · rw [h.2.2.1]
    rfl

/-! ## Claim C10: queue emptiness and channel capacity -/

/-- Claim C10: HasNext runs loadBatch only when the records queue is empty
(with anything queued it answers immediately, consulting no database); the
batch query is limited to `batchSize` rows, so the rows returned by the
model database fit the channel capacity `batchSize` and every send of the
result-processing loop completes without blocking, letting HasNext return. -/
theorem loadBatch_sends_never_block (g : Graph) (db2 : DB) (s : Snapshot) :
    (s.records ≠ [] → hasNext db2 s = .ok (true, s)) ∧
    (∀ rows, (graphDB g s.orderingProperty s.batchSize).run s.query s.queryParams = .ok rows →
      rows.length ≤ s.batchSize ∧
      chanSendAll s.batchSize [] rows = some rows ∧
      (s.records = [] →
        hasNext (graphDB g s.orderingProperty s.batchSize) s =
          .ok (!rows.isEmpty, { s with records := rows }))) := by
  constructor
  · intro h
    rw [hasNext, if_pos (List.length_pos.mpr h)]
  · intro rows hrun
    have hrows : rows.length ≤ s.batchSize := by
      by_cases hc : hasEmptyWherePredicate s.query
      · simp [graphDB, graphRunQuery, hc] at hrun
      · simp [graphDB, graphRunQuery, hc] at hrun
        rw [← hrun, List.length_take]
        omega
    refine ⟨hrows, ?_, ?_⟩
    · have := chanSendAll_of_fits s.batchSize rows [] (by simpa using hrows)
      simpa using this
    · intro h
      have h1 : hasNext (graphDB g s.orderingProperty s.batchSize) s =
          .ok (decide (0 < rows.length), { s with records := rows }) := by
        simp [hasNext, loadBatch, hrun, h]
      rw [h1]
      cases rows <;> simp

/-- Concrete graph for the C10 witness. -/
def c10Graph : Graph := [[("id", GoVal.int 1)], [("id", GoVal.int 2)], [("id", GoVal.int 3)]]

/-- Concrete database oracle for the C10 witness. -/
def c10DB : DB := graphDB c10Graph "id" 2

/-- Concrete polling-style snapshot state for the C10 witness: batch size 2
bounds the three matching rows. -/
def c10Snap : Snapshot :=
  { orderingProperty := "id"
    keyProperties := ["id"]
    orderingPropertyMaxValue := .null
    entityType := .node
    entityLabels := "Person"
    batchSize := 2
    position := some ⟨ModeSnapshotPolling, .int 0, .null⟩
    records := []
    polling := true }

/-- Witness for C10: the loaded batch is capped at 2 rows, fits the
capacity-2 channel without blocking, and HasNext returns true. -/
theorem loadBatch_sends_never_block_witness :
    [[("id", GoVal.int 1)], [("id", GoVal.int 2)]].length ≤ c10Snap.batchSize ∧
    chanSendAll c10Snap.batchSize [] [[("id", GoVal.int 1)], [("id", GoVal.int 2)]] =
      some [[("id", GoVal.int 1)], [("id", GoVal.int 2)]] ∧
    hasNext (graphDB c10Graph c10Snap.orderingProperty c10Snap.batchSize) c10Snap =
      .ok (true, { c10Snap with records := [[("id", GoVal.int 1)], [("id", GoVal.int 2)]] }) := by
  have h := (loadBatch_sends_never_block c10Graph c10DB c10Snap).2
    [[("id", GoVal.int 1)], [("id", GoVal.int 2)]] rfl
  exact ⟨h.1, h.2.1, by simpa using h.2.2 rfl⟩

/-! ## Claim C5: empty entity set at snapshot start -/

/-- Params of a fresh snapshot over an empty entity set. -/
def c5Params : SnapshotParams := ⟨"id", ["id"], .node, ["Person"], 10, none⟩

/-- Database oracle over the empty graph. -/
def c5DB : DB := graphDB [] "id" 10

/-- The snapshot state `NewSnapshot` builds over the empty entity set. -/
def c5Snap : Snapshot :=
  { orderingProperty := "id"
    keyProperties := ["id"]
    orderingPropertyMaxValue := .null
    entityType := .node
    entityLabels := "Person"
    batchSize := 10
    position := none
    records := []
    polling := false }

/-- Claim C5 against the code at its failing input (fresh start, snapshot
enabled, empty entity set): the max lookup does turn the driver's no-rows
outcome into `errNoElements`, construction succeeds with no max captured —
but the first HasNext builds the batch query with an empty WHERE predicate
(`... WHERE  RETURN ...`), which the database rejects as a syntax error, so
HasNext returns an error instead of reporting no next elements. -/
theorem empty_entity_set_hasNext_errors :
    getMaxPropertyValue c5DB "Person" "id" .node = .error (.wrap "execute read" errNoElements) ∧
    errorsIs (.wrap "execute read" errNoElements) errNoElements = true ∧
    NewSnapshot c5DB c5Params = .ok c5Snap ∧
    c5Snap.orderingPropertyMaxValue = .null ∧
    c5Snap.whereClause = "" ∧
    c5Snap.query = "MATCH (obj:Person) WHERE  RETURN obj LIMIT 10" ∧
    hasNext c5DB c5Snap =
      .error (.wrap "load batch" (.wrap "execute read"
        (.usage "SyntaxError: expected an expression after WHERE"))) := by
  refine ⟨rfl, by decide, rfl, rfl, rfl, rfl, rfl⟩

/-! ## Claim C9: snapshot determinism -/

/-- A full snapshot run: repeat HasNext and Next, collecting the emitted
records, until exhaustion, an error, or the fuel runs out. -/
def snapshotRunAux (db : DB) : Nat → Snapshot → List SrcRecord → List SrcRecord
  | 0, _, acc => acc.reverse
  | fuel + 1, s, acc =>
    match hasNext db s with
    | .error _ => acc.reverse
    | .ok (false, _) => acc.reverse
    | .ok (true, s2) =>
      match nextRecord s2 with
      | .ok r s3 => snapshotRunAux db fuel s3 (r :: acc)
      | _ => acc.reverse

/-- Claim C9: over any graph and configuration, two snapshot iterators
constructed over the same graph contents are the same state and two full
runs emit identical record sequences — the emitted sequence is a function
of the graph contents and the configuration alone (the model database is a
deterministic function of the graph, which is what "no mutation between
runs" buys on the real database). -/
theorem snapshot_run_deterministic (g : Graph) (params : SnapshotParams) (fuel : Nat)
    (s1 s2 : Snapshot)
    (h1 : NewSnapshot (graphDB g params.orderingProperty params.batchSize) params = .ok s1)
    (h2 : NewSnapshot (graphDB g params.orderingProperty params.batchSize) params = .ok s2) :
    snapshotRunAux (graphDB g params.orderingProperty params.batchSize) fuel s1 [] =
      snapshotRunAux (graphDB g params.orderingProperty params.batchSize) fuel s2 [] ∧
    s1 = s2 := by
  have hs : s1 = s2 := Except.ok.inj (h1.symm.trans h2)
  exact ⟨by rw [hs], hs⟩

/-- Concrete graph for the C9 witness. -/
def c9Graph : Graph := [[("id", GoVal.int 1)], [("id", GoVal.int 2)]]

/-- Concrete params for the C9 witness. -/
def c9Params : SnapshotParams := ⟨"id", ["id"], .node, ["Person"], 2, none⟩

/-- The snapshot state built over the C9 witness graph. -/
def c9Snap : Snapshot :=
  { orderingProperty := "id"
    keyProperties := ["id"]
    orderingPropertyMaxValue := .int 2
    entityType := .node
    entityLabels := "Person"
    batchSize := 2
    position := none
    records := []
    polling := false }

/-- Witness for C9 on a concrete two-row graph. -/
theorem snapshot_run_deterministic_witness :
    snapshotRunAux (graphDB c9Graph c9Params.orderingProperty c9Params.batchSize) 5 c9Snap [] =
      snapshotRunAux (graphDB c9Graph c9Params.orderingProperty c9Params.batchSize) 5 c9Snap [] ∧
    c9Snap = c9Snap :=
  snapshot_run_deterministic c9Graph c9Params 5 c9Snap c9Snap rfl rfl

/-! ## Claim C3: the polling iterator emits only create records -/

theorem hasNext_state (db : DB) (s : Snapshot) (b : Bool) (s2 : Snapshot)
    (h : hasNext db s = .ok (b, s2)) :
    s2 = s ∨ ∃ rows, s2 = { s with records := s.records ++ rows } := by
  unfold hasNext at h
  by_cases hrec : s.records.length > 0
  · rw [if_pos hrec] at h
    injection h with h1
    left
    exact (congrArg Prod.snd h1).symm
  · rw [if_neg hrec] at h
    cases hl : loadBatch db s with
    | error e => rw [hl] at h; cases h
    | ok s3 =>
      rw [hl] at h
      injection h with h1
      have hs2 : s3 = s2 := congrArg Prod.snd h1
      unfold loadBatch at hl
      cases hr : db.run s.query s.queryParams with
      | error e => rw [hr] at hl; cases hl
      | ok rows =>
        rw [hr] at hl
        injection hl with h2
        right
        exact ⟨rows, by rw [← hs2, ← h2]⟩

theorem nextRecord_ok_fields (s : Snapshot) (r : SrcRecord) (s2 : Snapshot)
    (h : nextRecord s = .ok r s2) :
    s2.polling = s.polling ∧
    r.operation = (if s.polling then Operation.create else Operation.snapshot) ∧
    lookupJ r.position "mode" =
      some (.str (if s.polling then ModeSnapshotPolling else ModeSnapshot)) := by
  unfold nextRecord at h
  cases hrec : s.records with
  | nil => rw [hrec] at h; cases h
  | cons record rest =>
    rw [hrec] at h
    cases hk : buildKey s.keyProperties record with
    | error e => simp [hk] at h
    | ok key =>
      simp [hk] at h
      obtain ⟨hr, hs⟩ := h
      refine ⟨by rw [← hs], ?_, ?_⟩
      · rw [← hr]
      · rw [← hr]
        simp [marshalSDKPosition, lookupJ, lookupA, List.find?]

theorem SnapStep_aux_polling (s s2 : Snapshot)
    (h : s2 = s ∨ ∃ rows, s2 = { s with records := s.records ++ rows }) :
    s2.polling = s.polling := by
  cases h with
  | inl h1 => rw [h1]
  | inr h2 => obtain ⟨rows, h2⟩ := h2; rw [h2]

/-- One observable step of the snapshot iterator: a HasNext call (with any
driver state) or a Next call. -/
inductive SnapStep : Snapshot → Snapshot → Prop where
  | ofHasNext (db : DB) (b : Bool) (s s2 : Snapshot) :
      hasNext db s = .ok (b, s2) → SnapStep s s2
  | ofNextOk (r : SrcRecord) (s s2 : Snapshot) :
      nextRecord s = .ok r s2 → SnapStep s s2
  | ofNextErr (e : GoErr) (s s2 : Snapshot) :
      nextRecord s = .err e s2 → SnapStep s s2

/-- Iterator states reachable through HasNext / Next calls. -/
def SnapReachable : Snapshot → Snapshot → Prop :=
  Relation.ReflTransGen SnapStep

theorem nextRecord_err_state (s : Snapshot) (e : GoErr) (s2 : Snapshot)
    (h : nextRecord s = .err e s2) : s2.polling = s.polling := by
  unfold nextRecord at h
  cases hrec : s.records with
  | nil => rw [hrec] at h; cases h
  | cons record rest =>
    rw [hrec] at h
    cases hk : buildKey s.keyProperties record with
    | error e2 =>
      simp [hk] at h
      rw [← h.2]
    | ok key => simp [hk] at h

theorem SnapStep.polling_eq {s s2 : Snapshot} (h : SnapStep s s2) :
    s2.polling = s.polling := by
  cases h with
  | ofHasNext db b s s2 h => exact SnapStep_aux_polling s s2 (hasNext_state db s b s2 h)
  | ofNextOk r s s2 h => exact (nextRecord_ok_fields s r s2 h).1
  | ofNextErr e s s2 h => exact nextRecord_err_state s e s2 h

theorem SnapReachable_polling {s0 s : Snapshot} (h : SnapReachable s0 s) :
    s.polling = s0.polling := by
  induction h with
  | refl => rfl
  | tail h1 h2 ih => rw [SnapStep.polling_eq h2, ih]

theorem NewPollingSnapshot_polling (db : DB) (params : SnapshotParams) (s : Snapshot)
    (h : NewPollingSnapshot db params = .ok s) : s.polling = true := by
  simp only [NewPollingSnapshot] at h
  cases hp : pollingStartPosition db params (String.intercalate ":" params.entityLabels) with
  | error e => rw [hp] at h; cases h
  | ok pos =>
    rw [hp] at h
    simp [bind, Except.bind, pure, Except.pure] at h
    rw [← h]

/-- Claim C3: every record emitted by a polling iterator (a Snapshot
constructed via NewPollingSnapshot), at any state reachable through
HasNext/Next calls over any driver results, is a create-operation record
whose position carries mode `snapshot_polling`; it is never an update-kind
or delete-kind record. -/
theorem polling_emits_only_create (db : DB) (params : SnapshotParams)
    (s0 s s2 : Snapshot) (r : SrcRecord)
    (h0 : NewPollingSnapshot db params = .ok s0)
    (hreach : SnapReachable s0 s)
    (hnext : nextRecord s = .ok r s2) :
    r.operation = .create ∧
    lookupJ r.position "mode" = some (.str ModeSnapshotPolling) ∧
    r.operation ≠ .update ∧ r.operation ≠ .delete := by
  have hpol : s.polling = true := by
    rw [SnapReachable_polling hreach]
    exact NewPollingSnapshot_polling db params s0 h0
  obtain ⟨-, hop, hmode⟩ := nextRecord_ok_fields s r s2 hnext
  rw [hpol] at hop hmode
  simp at hop hmode
  refine ⟨hop, hmode, ?_, ?_⟩ <;> rw [hop] <;> simp

/-- Concrete data for the C3 witness: polling started over a one-row graph
(seeding the low-water mark at 1), then one HasNext against the grown
graph and one Next. -/
def c3Params : SnapshotParams := ⟨"id", ["id"], .node, ["Person"], 10, none⟩

/-- The oracle at Open time for the C3 witness. -/
def c3DB : DB := graphDB [[("id", GoVal.int 1)]] "id" 10

/-- The oracle at read time for the C3 witness (a row was inserted). -/
def c3DB2 : DB := graphDB [[("id", GoVal.int 1)], [("id", GoVal.int 2)]] "id" 10

/-- The polling iterator state the C3 witness starts from. -/
def c3S0 : Snapshot :=
  { orderingProperty := "id"
    keyProperties := ["id"]
    orderingPropertyMaxValue := .null
    entityType := .node
    entityLabels := "Person"
    batchSize := 10
    position := some ⟨ModeSnapshotPolling, .int 1, .null⟩
    records := []
    polling := true }

/-- The C3 witness state after the HasNext call. -/
def c3S1 : Snapshot := { c3S0 with records := [[("id", GoVal.int 2)]] }

/-- The C3 witness state after the Next call. -/
def c3S2 : Snapshot :=
  { c3S0 with records := [], position := some ⟨ModeSnapshotPolling, .int 2, .null⟩ }

/-- The record the C3 witness emits. -/
def c3Rec : SrcRecord :=
  ⟨.create, [("mode", .str ModeSnapshotPolling), ("lastProcessedValue", .num 2)],
    [("id", .int 2)], "Person", [("id", .int 2)]⟩

/-- Witness for C3: the concrete polling run emits a create record with
mode `snapshot_polling`. -/
theorem polling_emits_only_create_witness :
    c3Rec.operation = .create ∧
    lookupJ c3Rec.position "mode" = some (.str ModeSnapshotPolling) ∧
    c3Rec.operation ≠ .update ∧ c3Rec.operation ≠ .delete :=
  polling_emits_only_create c3DB c3Params c3S0 c3S1 c3S2 c3Rec rfl
    (Relation.ReflTransGen.single (SnapStep.ofHasNext c3DB2 true c3S0 c3S1 rfl)) rfl

/-! ## Claim C1: snapshot reading never recurs once the mode is polling -/

theorem sourceRead_snapshot_none (db2 : DB) (s : SourceState) (h : s.snapshot = none) :
    (sourceRead db2 s).2.snapshot = none ∧
    (∀ poll, s.pollingSnapshot = some poll →
      sourceRead db2 s = ((readIter db2 poll).1, ⟨none, some (readIter db2 poll).2⟩)) := by
  obtain ⟨snap, poll⟩ := s
  simp only [SourceState.mk.injEq] at h ⊢
  subst h
  cases poll with
  | none => simp [sourceRead]
  | some p =>
    refine ⟨by simp [sourceRead], ?_⟩
    intro poll hp
    injection hp with hp
    subst hp
    simp [sourceRead]

theorem sourceReadIter_snapshot_none (db2 : DB) (n : Nat) (s : SourceState)
    (h : s.snapshot = none) : (sourceReadIter db2 n s).snapshot = none := by
  induction n generalizing s with
  | zero => simpa [sourceReadIter] using h
  | succ m ih =>
    rw [sourceReadIter]
    exact ih _ (sourceRead_snapshot_none db2 s h).1

theorem sourceRead_backoff_discards (db2 : DB) (st : SourceState)
    (snap poll : Snapshot) (x : Snapshot)
    (h1 : st.snapshot = some snap) (h2 : st.pollingSnapshot = some poll)
    (hb : readIter db2 snap = (.backoff, x)) :
    sourceRead db2 st = ((readIter db2 poll).1, ⟨none, some (readIter db2 poll).2⟩) := by
  obtain ⟨s1, s2⟩ := st
  simp only [SourceState.mk.injEq] at h1 h2
  subst h1
  subst h2
  simp [sourceRead, hb]

theorem sourceOpen_snapshot_built (db : DB) (cfg : SourceConfig)
    (sdkPosition : Option SDKPosition) (pos : Option Position) (st : SourceState)
    (hpos : sourceParsedPosition sdkPosition = .ok pos)
    (hopen : sourceOpen db cfg sdkPosition = .ok st) :
    st.snapshot.isSome = (cfg.snapshot && snapshotModeCond pos) := by
  simp only [sourceOpen, bind, Except.bind] at hopen
  rw [hpos] at hopen
  dsimp only [pure, Except.pure] at hopen
  cases hpoll : NewPollingSnapshot db (cfg.params pos) with
  | error e => rw [hpoll] at hopen; simp at hopen
  | ok poll =>
    rw [hpoll] at hopen
    dsimp only [pure, Except.pure] at hopen
    by_cases hc : (cfg.snapshot && snapshotModeCond pos) = true
    · rw [if_pos hc] at hopen
      cases hsnap : NewSnapshot db (cfg.params pos) with
      | error e => rw [hsnap] at hopen; simp at hopen
      | ok snap =>
        rw [hsnap] at hopen
        simp only [Except.ok.injEq] at hopen
        rw [← hopen, hc]
        rfl
    · rw [if_neg hc] at hopen
      simp only [Except.ok.injEq] at hopen
      rw [← hopen]
      simp only [Bool.not_eq_true] at hc
      rw [hc]
      rfl

/-- Claim C1: Open constructs the snapshot iterator only when the snapshot
feature is on and the prior position is absent or in mode `snapshot`; a
checkpointed `snapshot_polling` position therefore yields no snapshot
iterator; a source state without a snapshot iterator serves every Read
from the polling iterator and stays snapshot-free through any number of
reads; and the snapshot iterator's backoff signal makes Read discard it
and serve that same call from the polling iterator. -/
theorem source_snapshot_never_recurs (db : DB) (cfg : SourceConfig)
    (sdkPosition : Option SDKPosition) (pos : Option Position) (st : SourceState)
    (hpos : sourceParsedPosition sdkPosition = .ok pos)
    (hopen : sourceOpen db cfg sdkPosition = .ok st) :
    (st.snapshot.isSome = true →
      cfg.snapshot = true ∧ (pos = none ∨ ∃ p, pos = some p ∧ p.mode = ModeSnapshot)) ∧
    (∀ p, pos = some p → p.mode = ModeSnapshotPolling → st.snapshot = none) ∧
    (∀ db2 (s : SourceState), s.snapshot = none →
      (sourceRead db2 s).2.snapshot = none ∧
      (∀ poll, s.pollingSnapshot = some poll →
        sourceRead db2 s = ((readIter db2 poll).1, ⟨none, some (readIter db2 poll).2⟩))) ∧
    (∀ db2 (n : Nat) (s : SourceState), s.snapshot = none →
      (sourceReadIter db2 n s).snapshot = none) ∧
    (∀ db2 snap poll x, st.snapshot = some snap → st.pollingSnapshot = some poll →
      readIter db2 snap = (.backoff, x) →
      sourceRead db2 st = ((readIter db2 poll).1, ⟨none, some (readIter db2 poll).2⟩)) := by
  have hbuilt := sourceOpen_snapshot_built db cfg sdkPosition pos st hpos hopen
  refine ⟨?_, ?_,
    fun db2 s h => sourceRead_snapshot_none db2 s h,
    fun db2 n s h => sourceReadIter_snapshot_none db2 n s h,
    fun db2 snap poll x h1 h2 hb => sourceRead_backoff_discards db2 st snap poll x h1 h2 hb⟩
  · intro hsome
    rw [hsome] at hbuilt
    have hc := hbuilt.symm
    simp only [Bool.and_eq_true] at hc
    refine ⟨hc.1, ?_⟩
    cases hp2 : pos with
    | none => exact Or.inl rfl
    | some p =>
      refine Or.inr ⟨p, rfl, ?_⟩
      have h2 := hc.2
      rw [hp2] at h2
      simpa [snapshotModeCond] using h2
  · intro p hp hmode
    rw [hp] at hbuilt
    have hdec : snapshotModeCond (some p) = false := by
      simp [snapshotModeCond, hmode, ModeSnapshotPolling, ModeSnapshot]
    rw [hdec, Bool.and_false] at hbuilt
    exact Option.not_isSome_iff_eq_none.mp (by rw [hbuilt]; simp)

/-- Concrete data for the C1 witness: a checkpointed polling-mode position. -/
def c1Cfg : SourceConfig := ⟨"id", ["id"], .node, ["Person"], 10, true⟩

/-- The checkpointed position of the C1 witness, as marshalled JSON. -/
def c1SDKPos : SDKPosition := marshalSDKPosition ⟨ModeSnapshotPolling, .int 1, .null⟩

/-- The position the source parses back (the int came back as a float). -/
def c1ParsedPos : Position := ⟨ModeSnapshotPolling, .float 1, .null⟩

/-- The database oracle for the C1 witness. -/
def c1DB : DB := graphDB [[("id", GoVal.int 1)]] "id" 10

/-- The polling iterator Open builds in the C1 witness. -/
def c1Poll : Snapshot :=
  { orderingProperty := "id"
    keyProperties := ["id"]
    orderingPropertyMaxValue := .null
    entityType := .node
    entityLabels := "Person"
    batchSize := 10
    position := some c1ParsedPos
    records := []
    polling := true }

/-- The source state Open yields in the C1 witness. -/
def c1St : SourceState := ⟨none, some c1Poll⟩

/-- Witness for C1: opening with a `snapshot_polling` checkpoint builds no
snapshot iterator and reads stay snapshot-free. -/
theorem source_snapshot_never_recurs_witness :
    c1St.snapshot = none ∧ (sourceReadIter c1DB 3 c1St).snapshot = none := by
  have h := source_snapshot_never_recurs c1DB c1Cfg (some c1SDKPos) (some c1ParsedPos)
    c1St rfl rfl
  have hn := h.2.1 c1ParsedPos rfl rfl
  exact ⟨hn, h.2.2.2.1 c1DB 3 c1St hn⟩

/-! ## Claim C6: handleUpdate merge and clause construction -/

theorem dataFold2 (a b c : String) (h : a ++ b = c) (X : List Char) :
    a.data ++ (b.data ++ X) = c.data ++ X := by
  rw [← h, String.data_append, List.append_assoc]

theorem matchFragment_eq (name pfx : String) :
    name ++ ":" ++ "$" ++ pfx ++ name = name ++ ":$" ++ pfx ++ name := by
  apply String.ext
  simp only [String.data_append, List.append_assoc]
  rw [dataFold2 ":" "$" ":$" rfl]

theorem setFragment_eq (name : String) :
    "obj." ++ name ++ "=" ++ "$" ++ name = "obj." ++ name ++ "=$" ++ name := by
  apply String.ext
  simp only [String.data_append, List.append_assoc]
  rw [dataFold2 "=" "$" "=$" rfl]

/-- The MATCH-style clause builder produces exactly one `name:$PFXname`
entry per property, `, `-separated. -/
theorem cypherMatch_joinSep (properties : List (String × α)) (pfx : String)
    (h : ∀ p ∈ properties, lastCharOk p.1 = true) :
    cypherMatchProperties properties pfx =
      joinSep ", " (properties.map fun p => p.1 ++ ":$" ++ pfx ++ p.1) := by
  unfold cypherMatchProperties
  have hmap : properties.map (fun p => p.1 ++ ":" ++ "$" ++ pfx ++ p.1 ++ ", ")
      = (properties.map fun p => p.1 ++ ":$" ++ pfx ++ p.1).map (fun f => f ++ ", ") := by
    simp only [List.map_map, Function.comp]
    exact congrArg (fun f => List.map f properties)
      (funext fun p => congrArg (· ++ ", ") (matchFragment_eq p.1 pfx))
  rw [hmap]
  apply trim_concat_eq_joinSep
  intro f hf
  simp only [List.mem_map] at hf
  obtain ⟨p, hp, rfl⟩ := hf
  rw [lastCharOk_append _ _ (lastCharOk_data_ne (h p hp))]
  exact h p hp

/-- The SET-style clause builder produces exactly one `obj.name=$name`
entry per non-key property, `, `-separated. -/
theorem cypherSet_joinSep (properties : List (String × α)) (key : List (String × β))
    (h : ∀ p ∈ properties, lastCharOk p.1 = true) :
    cypherSetProperties properties key =
      joinSep ", " ((properties.filter fun p => ¬ (key.find? fun kp => kp.1 = p.1).isSome).map
        fun p => "obj." ++ p.1 ++ "=$" ++ p.1) := by
  unfold cypherSetProperties
  have hmap : (properties.filter fun p => ¬ (key.find? fun kp => kp.1 = p.1).isSome).map
        (fun p => "obj." ++ p.1 ++ "=" ++ "$" ++ p.1 ++ ", ")
      = ((properties.filter fun p => ¬ (key.find? fun kp => kp.1 = p.1).isSome).map
          fun p => "obj." ++ p.1 ++ "=$" ++ p.1).map (fun f => f ++ ", ") := by
    simp only [List.map_map, Function.comp]
    exact congrArg (fun f => List.map f _)
      (funext fun p => congrArg (· ++ ", ") (setFragment_eq p.1))
  rw [hmap]
  apply trim_concat_eq_joinSep
  intro f hf
  simp only [List.mem_map] at hf
  obtain ⟨p, hp, rfl⟩ := hf
  rw [lastCharOk_append _ _ (lastCharOk_data_ne (h p (List.mem_of_mem_filter hp)))]
  exact h p (List.mem_of_mem_filter hp)

theorem lookupW_deleteW_self (m : WProps) (k : String) : lookupW (deleteW m k) k = none := by
  unfold lookupW lookupA deleteW
  apply Option.map_eq_none'.mpr
  apply List.find?_eq_none.mpr
  intro x hx
  rw [List.mem_filter] at hx
  simpa using hx.2

theorem lookupW_deleteW_other (m : WProps) (k k2 : String) (hne : ¬ k = k2) :
    lookupW (deleteW m k2) k = lookupW m k := by
  unfold lookupW deleteW
  apply lookupA_filter
  intro p hp h1
  exact decide_eq_true (by rw [h1]; exact hne)

/-- Claim C6: for an update with structurized key and payload, the writer
strips the reserved relationship fields from the payload, merges the key
fields into the bind-parameter map without overwriting same-named payload
entries, builds the MATCH clause from exactly the key properties and the
SET clause from exactly the bound properties whose names are not key
names, and the statement splices those two clauses into the entity-type
template. -/
theorem handleUpdate_merge_and_clauses (entityLabels : String) (et : EntityType)
    (key payload : WProps)
    (hk : ∀ p ∈ key, lastCharOk p.1 = true)
    (hp : ∀ p ∈ payload, lastCharOk p.1 = true) :
    lookupW (deleteW (deleteW payload "sourceNode") "targetNode") "sourceNode" = none ∧
    lookupW (deleteW (deleteW payload "sourceNode") "targetNode") "targetNode" = none ∧
    (∀ name v,
      lookupW (deleteW (deleteW payload "sourceNode") "targetNode") name = some v →
      lookupW (handleUpdateQuery entityLabels et key payload).2 name = some v) ∧
    (∀ name v,
      lookupW (deleteW (deleteW payload "sourceNode") "targetNode") name = none →
      lookupW key name = some v →
      lookupW (handleUpdateQuery entityLabels et key payload).2 name = some v) ∧
    cypherMatchProperties key "" = joinSep ", " (key.map fun p => p.1 ++ ":$" ++ p.1) ∧
    cypherSetProperties (handleUpdateQuery entityLabels et key payload).2 key =
      joinSep ", " (((handleUpdateQuery entityLabels et key payload).2.filter
        fun p => ¬ (key.find? fun kp => kp.1 = p.1).isSome).map
        fun p => "obj." ++ p.1 ++ "=$" ++ p.1) ∧
    (handleUpdateQuery entityLabels et key payload).1 =
      (match et with
       | .node =>
         "MATCH (obj:" ++ entityLabels ++ " \x7b" ++ cypherMatchProperties key ""
           ++ "\x7d) SET "
           ++ cypherSetProperties (handleUpdateQuery entityLabels et key payload).2 key
       | .relationship =>
         "MATCH ()-[obj:" ++ entityLabels ++ " \x7b" ++ cypherMatchProperties key ""
           ++ "\x7d]->() SET "
           ++ cypherSetProperties (handleUpdateQuery entityLabels et key payload).2 key) := by
  have hbound : (handleUpdateQuery entityLabels et key payload).2 =
      deleteW (deleteW payload "sourceNode") "targetNode"
        ++ key.filter (fun kp =>
            ¬ (lookupW (deleteW (deleteW payload "sourceNode") "targetNode") kp.1).isSome) := by
    cases et <;> rfl
  have hboundNames : ∀ p ∈ (handleUpdateQuery entityLabels et key payload).2,
      lastCharOk p.1 = true := by
    intro p hmem
    rw [hbound] at hmem
    rcases List.mem_append.mp hmem with h1 | h1
    · exact hp p (List.mem_of_mem_filter (List.mem_of_mem_filter h1))
    · exact hk p (List.mem_of_mem_filter h1)
  refine ⟨?_, ?_, ?_, ?_, ?_, ?_, ?_⟩
  · rw [lookupW_deleteW_other _ _ _ (by decide)]
    exact lookupW_deleteW_self payload "sourceNode"
  · exact lookupW_deleteW_self _ "targetNode"
  · intro name v h1
    rw [hbound]
    unfold lookupW at h1 ⊢
    rw [lookupA_append, h1]
    rfl
  · intro name v h1 h2
    rw [hbound]
    unfold lookupW at h1 h2 ⊢
    rw [lookupA_append, h1]
    have hq : ∀ pp ∈ key, pp.1 = name →
        (fun kp : String × WVal =>
          decide (¬ (lookupA (deleteW (deleteW payload "sourceNode") "targetNode") kp.1).isSome
            = true)) pp = true := by
      intro pp hpp he
      apply decide_eq_true
      rw [he, h1]
      simp
    simp only [Option.map_none', Option.getD_none]
    rw [lookupA_filter key _ name hq]
    exact h2
  · have h0 := cypherMatch_joinSep key "" hk
    have hfun : (fun p : String × WVal => p.1 ++ ":$" ++ "" ++ p.1)
        = (fun p : String × WVal => p.1 ++ ":$" ++ p.1) :=
      funext fun p => by rw [String.append_empty]
    rw [h0, hfun]
  · exact cypherSet_joinSep (handleUpdateQuery entityLabels et key payload).2 key hboundNames
  · cases et <;> rfl

/-- Concrete key for the C6 witness. -/
def c6Key : WProps := [("id", .prim (.str "a"))]

/-- Concrete payload for the C6 witness (carrying a reserved field). -/
def c6Payload : WProps :=
  [("id", .prim (.str "a")), ("name", .prim (.str "NewBob")), ("sourceNode", .prim .null)]

/-- Witness for C6: the payload entry stays bound, the reserved field is
stripped, and the clauses come out as `id:$id` and `obj.name=$name`. -/
theorem handleUpdate_merge_and_clauses_witness :
    lookupW (deleteW (deleteW c6Payload "sourceNode") "targetNode") "sourceNode" = none ∧
    lookupW (handleUpdateQuery "Person" .node c6Key c6Payload).2 "name" =
      some (.prim (.str "NewBob")) ∧
    cypherMatchProperties c6Key "" = "id:$id" ∧
    (handleUpdateQuery "Person" .node c6Key c6Payload).1 =
      "MATCH (obj:Person \x7bid:$id\x7d) SET obj.name=$name" := by
  have h := handleUpdate_merge_and_clauses "Person" .node c6Key c6Payload
    (by decide) (by decide)
  refine ⟨h.1, h.2.2.1 "name" (.prim (.str "NewBob")) rfl, ?_, rfl⟩
  rw [h.2.2.2.2.1]
  rfl

/-! ## Claim C7: relationship create, prefixes and collisions -/

theorem createRelationshipQuery_ok (entityLabels : String) (payload : WProps) (rc : RelCreate)
    (hok : createRelationshipQuery entityLabels payload = .ok rc) :
    sourceTargetNodesFromProperties payload =
      .ok (rc.sourceNode, rc.targetNode, rc.relProperties) ∧
    rc.query = "MATCH (src:" ++ String.intercalate ":" rc.sourceNode.labels ++ " \x7b"
      ++ cypherMatchProperties rc.sourceNode.key "src_" ++ "\x7d) MATCH (trgt:"
      ++ String.intercalate ":" rc.targetNode.labels ++ " \x7b"
      ++ cypherMatchProperties rc.targetNode.key "trgt_" ++ "\x7d) CREATE (src)-[obj:"
      ++ entityLabels ++ " \x7b" ++ cypherMatchProperties rc.relProperties ""
      ++ "\x7d]->(trgt)" ∧
    rc.bound = mergePrefixed (mergePrefixed rc.relProperties "src_" rc.sourceNode.key)
      "trgt_" rc.targetNode.key := by
  simp only [createRelationshipQuery, bind, Except.bind] at hok
  cases hstn : sourceTargetNodesFromProperties payload with
  | error e => rw [hstn] at hok; simp at hok
  | ok x =>
    obtain ⟨s, t, props⟩ := x
    rw [hstn] at hok
    dsimp only [pure, Except.pure] at hok
    simp only [Except.ok.injEq] at hok
    subst hok
    exact ⟨rfl, rfl, rfl⟩

theorem sourceTargetNodes_strip (properties : WProps) (s t : SchemaNode) (props : WProps)
    (h : sourceTargetNodesFromProperties properties = .ok (s, t, props)) :
    props = deleteW (deleteW properties "sourceNode") "targetNode" := by
  simp only [sourceTargetNodesFromProperties, bind, Except.bind] at h
  cases h1 : lookupW properties "sourceNode" with
  | none => rw [h1] at h; simp at h
  | some raw =>
    rw [h1] at h
    dsimp only [pure, Except.pure] at h
    cases h2 : decodeNode raw with
    | error e => rw [h2] at h; simp at h
    | ok sn =>
      rw [h2] at h
      dsimp only [pure, Except.pure] at h
      cases h3 : lookupW (deleteW properties "sourceNode") "targetNode" with
      | none => rw [h3] at h; simp at h
      | some raw2 =>
        rw [h3] at h
        dsimp only [pure, Except.pure] at h
        cases h4 : decodeNode raw2 with
        | error e => rw [h4] at h; simp at h
        | ok tn =>
          rw [h4] at h
          dsimp only [pure, Except.pure] at h
          simp only [Except.ok.injEq, Prod.mk.injEq] at h
          exact h.2.2.symm

/-- Claim C7 amended: the writer removes the two reserved fields from the
relationship properties and builds the three clauses with parameter
prefixes `src_`, `trgt_` and no prefix; the two endpoint prefix families
never collide with each other, and an endpoint parameter name collides
with a relationship property parameter name only when a remaining
relationship property is itself named `src_<key>` or `trgt_<key>` for an
endpoint key — excluded here by hypothesis. -/
theorem createRelationship_clauses_and_prefixes (entityLabels : String) (payload : WProps)
    (rc : RelCreate)
    (hok : createRelationshipQuery entityLabels payload = .ok rc)
    (hsrc : ∀ p ∈ rc.sourceNode.key, lastCharOk p.1 = true)
    (htrgt : ∀ p ∈ rc.targetNode.key, lastCharOk p.1 = true)
    (hrel : ∀ p ∈ rc.relProperties, lastCharOk p.1 = true)
    (hcol : ∀ q ∈ rc.relParamNames,
      (∀ k ∈ rc.sourceNode.key, q ≠ "src_" ++ k.1) ∧
      (∀ k ∈ rc.targetNode.key, q ≠ "trgt_" ++ k.1)) :
    lookupW rc.relProperties "sourceNode" = none ∧
    lookupW rc.relProperties "targetNode" = none ∧
    rc.query = "MATCH (src:" ++ String.intercalate ":" rc.sourceNode.labels ++ " \x7b"
      ++ joinSep ", " (rc.sourceNode.key.map fun p => p.1 ++ ":$src_" ++ p.1)
      ++ "\x7d) MATCH (trgt:" ++ String.intercalate ":" rc.targetNode.labels ++ " \x7b"
      ++ joinSep ", " (rc.targetNode.key.map fun p => p.1 ++ ":$trgt_" ++ p.1)
      ++ "\x7d) CREATE (src)-[obj:" ++ entityLabels ++ " \x7b"
      ++ joinSep ", " (rc.relProperties.map fun p => p.1 ++ ":$" ++ p.1)
      ++ "\x7d]->(trgt)" ∧
    (∀ k1 ∈ rc.sourceNode.key, ∀ k2 ∈ rc.targetNode.key,
      ("src_" ++ k1.1 : String) ≠ "trgt_" ++ k2.1) ∧
    (∀ n ∈ rc.endpointParamNames, n ∉ rc.relParamNames) := by
  obtain ⟨hstn, hquery, hbound⟩ := createRelationshipQuery_ok entityLabels payload rc hok
  have hstrip := sourceTargetNodes_strip payload rc.sourceNode rc.targetNode rc.relProperties hstn
  refine ⟨?_, ?_, ?_, ?_, ?_⟩
  · rw [hstrip, lookupW_deleteW_other _ _ _ (by decide)]
    exact lookupW_deleteW_self payload "sourceNode"
  · rw [hstrip]
    exact lookupW_deleteW_self _ "targetNode"
  · have hfunSrc : (fun p : String × GoVal => p.1 ++ ":$" ++ "src_" ++ p.1)
        = (fun p : String × GoVal => p.1 ++ ":$src_" ++ p.1) := by
      funext p
      apply String.ext
      simp only [String.data_append, List.append_assoc]
      rw [dataFold2 ":$" "src_" ":$src_" rfl]
    have hfunTrgt : (fun p : String × GoVal => p.1 ++ ":$" ++ "trgt_" ++ p.1)
        = (fun p : String × GoVal => p.1 ++ ":$trgt_" ++ p.1) := by
      funext p
      apply String.ext
      simp only [String.data_append, List.append_assoc]
      rw [dataFold2 ":$" "trgt_" ":$trgt_" rfl]
    have hfunRel : (fun p : String × WVal => p.1 ++ ":$" ++ "" ++ p.1)
        = (fun p : String × WVal => p.1 ++ ":$" ++ p.1) :=
      funext fun p => by rw [String.append_empty]
    rw [hquery, cypherMatch_joinSep rc.sourceNode.key "src_" hsrc,
      cypherMatch_joinSep rc.targetNode.key "trgt_" htrgt,
      cypherMatch_joinSep rc.relProperties "" hrel, hfunSrc, hfunTrgt, hfunRel]
  · intro k1 h1 k2 h2 heq
    have hd := congrArg String.data heq
    rw [String.data_append, String.data_append,
      show ("src_" : String).data = ['s', 'r', 'c', '_'] from rfl,
      show ("trgt_" : String).data = ['t', 'r', 'g', 't', '_'] from rfl] at hd
    simp at hd
  · intro n hn hmem
    have hc := hcol n hmem
    simp only [RelCreate.endpointParamNames] at hn
    rcases List.mem_append.mp hn with h1 | h1
    · obtain ⟨k, hk2, rfl⟩ := List.mem_map.mp h1
      exact hc.1 k hk2 rfl
    · obtain ⟨k, hk2, rfl⟩ := List.mem_map.mp h1
      exact hc.2 k hk2 rfl

/-- A relationship payload whose own property `src_id` collides with the
prefixed parameter name of the source endpoint key `id`. -/
def c7Payload : WProps :=
  [("src_id", .prim (.str "boom")),
   ("sourceNode", .node ["User"] [("id", .int 1)]),
   ("targetNode", .node ["User"] [("id", .int 2)])]

/-- What the writer builds for `c7Payload`: one parameter name `src_id`
serves both the source-node match and the relationship property, and the
bound value is the relationship property's, not the endpoint key's. -/
def c7RC : RelCreate :=
  { query := "MATCH (src:User \x7bid:$src_id\x7d) MATCH (trgt:User \x7bid:$trgt_id\x7d)"
      ++ " CREATE (src)-[obj:KNOWS \x7bsrc_id:$src_id\x7d]->(trgt)"
    bound := [("src_id", .prim (.str "boom")), ("trgt_id", .prim (.int 2))]
    sourceNode := ⟨["User"], [("id", .int 1)]⟩
    targetNode := ⟨["User"], [("id", .int 2)]⟩
    relProperties := [("src_id", .prim (.str "boom"))] }

/-- Claim C7 as stated is false on the code: the distinct prefixes do not
guarantee collision freedom.  With relationship property `src_id` and
source key `id`, the endpoint parameter name `src_id` equals a remaining
relationship property's parameter name, and the endpoint key value is not
bound at all (the payload value wins). -/
theorem createRelationship_prefix_collision_counterexample :
    createRelationshipQuery "KNOWS" c7Payload = .ok c7RC ∧
    "src_id" ∈ c7RC.endpointParamNames ∧
    "src_id" ∈ c7RC.relParamNames ∧
    lookupW c7RC.bound "src_id" = some (.prim (.str "boom")) := by
  exact ⟨rfl, by decide, by decide, rfl⟩

/-- A collision-free relationship payload for the C7 witness. -/
def c7CleanPayload : WProps :=
  [("since", .prim (.int 2020)),
   ("sourceNode", .node ["User"] [("id", .int 1)]),
   ("targetNode", .node ["User"] [("id", .int 2)])]

/-- What the writer builds for `c7CleanPayload`. -/
def c7CleanRC : RelCreate :=
  { query := "MATCH (src:User \x7bid:$src_id\x7d) MATCH (trgt:User \x7bid:$trgt_id\x7d)"
      ++ " CREATE (src)-[obj:KNOWS \x7bsince:$since\x7d]->(trgt)"
    bound := [("since", .prim (.int 2020)), ("src_id", .prim (.int 1)),
      ("trgt_id", .prim (.int 2))]
    sourceNode := ⟨["User"], [("id", .int 1)]⟩
    targetNode := ⟨["User"], [("id", .int 2)]⟩
    relProperties := [("since", .prim (.int 2020))] }

/-- Witness for the amended C7 on a collision-free payload: reserved
fields stripped and endpoint parameter names disjoint from relationship
parameter names. -/
theorem createRelationship_clauses_and_prefixes_witness :
    lookupW c7CleanRC.relProperties "sourceNode" = none ∧
    (∀ n ∈ c7CleanRC.endpointParamNames, n ∉ c7CleanRC.relParamNames) := by
  have h := createRelationship_clauses_and_prefixes "KNOWS" c7CleanPayload c7CleanRC
    rfl (by decide) (by decide) (by decide) (by decide)
  exact ⟨h.1, h.2.2.2.2⟩

end Neo4jConn
